import Mathlib

/-!
Shallow embedding of the three command-line utilities of the
`openwebui-mcp-setup` repository (`scripts/health-check.py`,
`scripts/convert-mcp-config.py`, `scripts/validate-config.py`), together
with theorems settling the specification claims about them.

Python strings such as `'pass'`, `'fail'`, ... used as check statuses are
modelled by the inductive type `Status`; Python `None`/exceptions are
modelled by `Option`/`Except`; parsed JSON values by the inductive `JVal`;
Python dictionaries (whose insertion order is observable) by association
lists with first-occurrence update semantics (`insertAssoc`).
-/

namespace McpoSetup

/-- The five check statuses of `health-check.py`
(`'pass'`, `'fail'`, `'warning'`, `'error'`, `'skip'`). -/
inductive Status where
  | pass
  | fail
  | warning
  | error
  | skip
deriving DecidableEq, Repr

/-- A structured detail value stored in a `CheckResult`'s `details` dict
(the source stores numbers and strings there). -/
inductive DVal where
  | num (n : Int)
  | str (s : String)
deriving DecidableEq, Repr

/-- What an individual check function returns before the runner adds the
`duration` field: the `status` / `message` / `details` dictionary built by
each `_check_*` method of `HealthChecker`. -/
structure ProbeResult where
  status : Status
  message : String
  details : List (String × DVal)
deriving DecidableEq, Repr

/-- One entry of `results['checks']`: a probe result plus the `duration`
added by `_run_check`.  `round(time.time() - start_time, 3)` yields a
3-decimal number of seconds; we carry it as an abstract measured value
(in milliseconds, so that it is a `Nat`). -/
structure CheckResult where
  status : Status
  message : String
  duration : Nat
  details : List (String × DVal)
deriving DecidableEq, Repr

/-- The slice of the health-check configuration dictionary consulted by
`_should_run_check`: `config.get('enabled_checks', [])` and
`config.get('disabled_checks', [])` (per §3 of the spec both are lists of
check names). -/
structure HCConfig where
  enabled_checks : List String
  disabled_checks : List String
deriving DecidableEq, Repr

/-- The fixed registration-ordered list of the eight check names in
`HealthChecker.run_all_checks`. -/
def checkNames : List String :=
  ["mcpo_connectivity", "mcpo_authentication", "mcpo_tools",
   "mcpo_performance", "system_resources", "docker_health",
   "database_health", "network_connectivity"]

/-- `HealthChecker._should_run_check`: with a non-empty `enabled_checks`
list the name must be in it; otherwise the name must not be in
`disabled_checks`. -/
def shouldRunCheck (cfg : HCConfig) (name : String) : Bool :=
  if !cfg.enabled_checks.isEmpty then
    cfg.enabled_checks.contains name
  else
    !(cfg.disabled_checks.contains name)

/-- The keys of `results['checks']` after `run_all_checks`: the loop visits
the registered checks in order and inserts a result exactly for those
passing `_should_run_check` (dict insertion order = registration order). -/
def reportedCheckNames (cfg : HCConfig) : List String :=
  checkNames.filter (shouldRunCheck cfg)

/-- `HealthChecker._run_check`: run one check with error handling.  The
probe invocation is modelled by its outcome, `Except.error e` standing for
a raised exception with text `e`; `elapsed` is the measured wall-clock
duration. -/
def runCheck (outcome : Except String ProbeResult) (elapsed : Nat) :
    CheckResult :=
  match outcome with
  | .ok r =>
      { status := r.status, message := r.message,
        duration := elapsed, details := r.details }
  | .error e =>
      { status := .error,
        message := "Check failed with exception: " ++ e,
        duration := elapsed, details := {} }

/-- The check-running loop of `run_all_checks`: every selected check's probe
outcome (possibly an exception) becomes exactly one `CheckResult`. -/
def runAllChecks (cfg : HCConfig)
    (probes : String → Except String ProbeResult)
    (times : String → Nat) : List (String × CheckResult) :=
  (reportedCheckNames cfg).map (fun n => (n, runCheck (probes n) (times n)))

/-- The `summary` dictionary built by `HealthChecker._calculate_summary`. -/
structure Summary where
  total : Nat
  passed : Nat
  failed : Nat
  warnings : Nat
  skipped : Nat
deriving DecidableEq, Repr

/-- The counting part of `_calculate_summary` over `results['checks']`.
(`skipped = total - passed - failed - warnings` is exact here: the three
counts are of mutually exclusive statuses, so their sum never exceeds
`total` and the `Nat` subtraction agrees with Python's `int` result.) -/
def calculateSummary (checks : List (String × CheckResult)) : Summary :=
  let total := checks.length
  let passed := checks.countP (fun c => c.2.status = Status.pass)
  let failed := checks.countP (fun c => c.2.status = Status.fail)
  let warnings := checks.countP (fun c => c.2.status = Status.warning)
  { total := total, passed := passed, failed := failed,
    warnings := warnings,
    skipped := total - passed - failed - warnings }

/-- The tail of `_calculate_summary`: derive `results['overall_status']`
from the `failed` and `warnings` counts. -/
def overallStatus (checks : List (String × CheckResult)) : Status :=
  if 0 < (calculateSummary checks).failed then .fail
  else if 0 < (calculateSummary checks).warnings then .warning
  else .pass

/-- Python truthiness of the optional `api_key` configuration entry
(`if not api_key:` treats both `None` and the empty string as absent). -/
def apiKeyTruthy : Option String → Bool
  | none => false
  | some s => !(s == "")

/-- `HealthChecker._check_mcpo_authentication`.  The `requests.get` call is
modelled by its outcome: `Except.ok code` is a response with that HTTP
status code, `Except.error e` a raised exception. -/
def checkMcpoAuthentication (apiKey : Option String)
    (resp : Except String Nat) : ProbeResult :=
  if !(apiKeyTruthy apiKey) then
    { status := .skip, message := "No API key configured", details := [] }
  else
    let k := apiKey.getD ""
    match resp with
    | .error e =>
        { status := .error,
          message := "Authentication check failed: " ++ e, details := [] }
    | .ok code =>
        if code == 200 then
          { status := .pass, message := "Authentication successful",
            details := [("status_code", .num (Int.ofNat code)),
                        ("api_key_length", .num (Int.ofNat k.length))] }
        else if code == 401 || code == 403 then
          { status := .fail,
            message := "Authentication failed (HTTP " ++ toString code ++
              ")",
            details := [("status_code", .num (Int.ofNat code))] }
        else
          { status := .warning,
            message := "Unexpected status code: " ++ toString code,
            details := [("status_code", .num (Int.ofNat code))] }

/-- A parsed JSON value, as produced by `json.load` / `json.loads`.
Object keys are strings (as in Python's JSON model) and numbers are carried
as integers (the configuration values the scripts inspect are ints and
strings). -/
inductive JVal where
  | null
  | bool (b : Bool)
  | num (n : Int)
  | str (s : String)
  | arr (xs : List JVal)
  | obj (fs : List (String × JVal))

/-- Python truthiness of a JSON value (`if config.get('disabled', False):`
and similar tests). -/
def JVal.truthy : JVal → Bool
  | .null => false
  | .bool b => b
  | .num n => n != 0
  | .str s => !(s == "")
  | .arr xs => !xs.isEmpty
  | .obj fs => !fs.isEmpty

/-- Dictionary field lookup, `d.get(k)` / `d[k]`.  JSON objects have unique
keys, modelled by taking the first matching entry of the association
list. -/
def getField (fs : List (String × JVal)) (k : String) : Option JVal :=
  (fs.find? (fun p => p.1 == k)).map (fun p => p.2)

/-- `k in d` for a dictionary. -/
def hasField (fs : List (String × JVal)) (k : String) : Bool :=
  fs.any (fun p => p.1 == k)

/-- Python dict assignment `d[k] = v`: update in place when the key exists
(keeping its insertion position), otherwise append at the end. -/
def insertAssoc {α : Type} (m : List (String × α)) (k : String) (v : α) :
    List (String × α) :=
  if m.any (fun p => p.1 == k) then
    m.map (fun p => if p.1 == k then (k, v) else p)
  else
    m ++ [(k, v)]

/-- `k in m` for the dictionaries built with `insertAssoc`. -/
def hasKey {α : Type} (m : List (String × α)) (k : String) : Bool :=
  m.any (fun p => p.1 == k)

/-- Python `pat in s` substring test, over character lists. -/
def containsSublist (pat : List Char) : List Char → Bool
  | [] => pat.isEmpty
  | c :: rest => pat.isPrefixOf (c :: rest) || containsSublist pat rest

/-- Python `str.lower()` (ASCII lower-casing of each character). -/
def strToLower (s : String) : String :=
  String.mk (s.toList.map Char.toLower)

/-- Python `s.startswith(pre)`. -/
def strStartsWith (s pre : String) : Bool :=
  pre.toList.isPrefixOf s.toList

/-- The character class `[a-zA-Z0-9_-]` of both
`convert-mcp-config.py`'s `_clean_server_name` and
`validate-config.py`'s server-name pattern `^[a-zA-Z0-9_-]+$`. -/
def isAllowedChar (c : Char) : Bool :=
  c.isAlpha || c.isDigit || c == '_' || c == '-'

/-- Step 1 of `MCPConfigConverter._clean_server_name`:
`re.sub(r'^(github\.com/|gitlab\.com/|mcp-server-)', '', name)` — the
pattern is anchored at the start so at most one prefix occurrence is
removed (each alternative happens to be 11 characters long). -/
def stripKnownPrefix (name : String) : String :=
  if strStartsWith name "github.com/" then String.mk (name.toList.drop 11)
  else if strStartsWith name "gitlab.com/" then
    String.mk (name.toList.drop 11)
  else if strStartsWith name "mcp-server-" then
    String.mk (name.toList.drop 11)
  else name

/-- Step 2: `re.sub(r'[^a-zA-Z0-9_-]', '_', name)`. -/
def replaceDisallowed (l : List Char) : List Char :=
  l.map (fun c => if isAllowedChar c then c else '_')

/-- Step 3: `re.sub(r'_+', '_', name)` — collapse runs of underscores.
The Boolean argument records whether the previous kept character was an
underscore. -/
def collapseUnderscoresAux : Bool → List Char → List Char
  | _, [] => []
  | prevU, c :: rest =>
      if c == '_' then
        if prevU then collapseUnderscoresAux true rest
        else '_' :: collapseUnderscoresAux true rest
      else c :: collapseUnderscoresAux false rest

/-- Step 4: `name.strip('_')` — drop leading and trailing underscores. -/
def stripUnderscores (l : List Char) : List Char :=
  ((l.dropWhile (fun c => c == '_')).reverse.dropWhile
    (fun c => c == '_')).reverse

/-- The four rewriting steps of `_clean_server_name`, without the final
`or 'server'` fallback.  This composition is exactly the transformation
described by the specification's sentence on server-name sanitisation. -/
def cleanServerNamePipeline (name : String) : String :=
  String.mk (stripUnderscores (collapseUnderscoresAux false
    (replaceDisallowed (stripKnownPrefix name).toList)))

/-- `MCPConfigConverter._clean_server_name`: the pipeline above followed by
`return name or 'server'` (an empty result is replaced by `'server'`). -/
def cleanServerName (name : String) : String :=
  let s := cleanServerNamePipeline name
  if s == "" then "server" else s

/-- A message accumulated on `self.info` or `self.warnings` of
`MCPConfigConverter`. -/
inductive ConvMsg where
  | info (s : String)
  | warning (s : String)
deriving DecidableEq, Repr

/-- An entry of the converter's output `mcpServers` object:
`{'command': ..., 'args': ...}` plus `env` when present. -/
structure ConvertedServer where
  command : String
  args : JVal
  env : Option JVal

/-- View a list of JSON values as a list of strings (`none` when some
element is not a string). -/
def strList : List JVal → Option (List String)
  | [] => some []
  | x :: rest =>
      match x with
      | .str s => (strList rest).map (fun l => s :: l)
      | _ => none

/-- View a JSON value as a list of strings, as required by the wrapper
unwrapping code that indexes `args[0]` and calls `.lower()` on its
elements. -/
def asStringList : JVal → Option (List String)
  | .arr xs => strList xs
  | _ => none

/-- Helper for `splitWhitespace`: `cur` holds the characters of the token
being read, in reverse. -/
def splitWhitespaceAux (cur : List Char) : List Char → List String
  | [] => if cur.isEmpty then [] else [String.mk cur.reverse]
  | c :: rest =>
      if c.isWhitespace then
        if cur.isEmpty then splitWhitespaceAux [] rest
        else String.mk cur.reverse :: splitWhitespaceAux [] rest
      else splitWhitespaceAux (c :: cur) rest

/-- Python `str.split()` with no argument: split on whitespace runs,
discarding empty pieces. -/
def splitWhitespace (s : String) : List String :=
  splitWhitespaceAux [] s.toList

/-- `MCPConfigConverter._unwrap_windows_command`. -/
def unwrapWindowsCommand (args : List String) : String × List String :=
  match args with
  | [] => ("cmd", [])
  | a :: rest =>
      let args' := if strToLower a == "/c" || strToLower a == "-c" then rest
                   else a :: rest
      match args' with
      | [] => ("cmd", [])
      | b :: rest' => (b, rest')

/-- `MCPConfigConverter._unwrap_powershell_command`. -/
def unwrapPowershellCommand (args : List String) : String × List String :=
  match args with
  | a :: b :: rest =>
      if strToLower a == "-command" || strToLower a == "-c" then
        match splitWhitespace b with
        | [] => ("powershell", a :: b :: rest)
        | p :: ps => (p, ps)
      else ("powershell", a :: b :: rest)
  | [_] => ("powershell", args)
  | [] => ("powershell", [])

/-- The PowerShell half of `_convert_single_server`'s wrapper handling.
When the (lower-cased) command is a wrapper executable the code indexes
into `args` and lower-cases its elements, which raises a `TypeError`
unless `args` is a list of strings; that raise is modelled by
`Except.error`. -/
def resolvePowershell (name c1 : String) (a1 : JVal) :
    Except String (String × JVal) :=
  if strToLower c1 == "powershell" || strToLower c1 == "pwsh" then
    match asStringList a1 with
    | some l =>
        let p := unwrapPowershellCommand l
        Except.ok (p.1, JVal.arr (p.2.map JVal.str))
    | none => Except.error ("TypeError: args of server '" ++ name ++
        "' is not a list of strings")
  else Except.ok (c1, a1)

/-- The `cmd`/`cmd.exe` unwrapping `if`, chained into `resolvePowershell`
(the source mutates `command`/`args` across the two `if`s). -/
def resolveCommandArgs (name command0 : String) (argsV : JVal) :
    Except String (String × JVal) :=
  if strToLower command0 == "cmd" || strToLower command0 == "cmd.exe" then
    match asStringList argsV with
    | some l =>
        let p := unwrapWindowsCommand l
        resolvePowershell name p.1 (JVal.arr (p.2.map JVal.str))
    | none => Except.error ("TypeError: args of server '" ++ name ++
        "' is not a list of strings")
  else resolvePowershell name command0 argsV

/-- `MCPConfigConverter._convert_single_server`.  Returns `none` (plus an
info/warning message) for servers that are skipped, `some` for converted
ones; `Except.error` models the exceptions Python raises on ill-typed
configurations (`config.get` on a non-dict, `.lower()` on a non-string
command, indexing non-string args of a wrapper command). -/
def convertSingleServer (name : String) (cfg : JVal) :
    Except String (Option ConvertedServer × List ConvMsg) :=
  match cfg with
  | .obj fs =>
      if ((getField fs "disabled").getD (.bool false)).truthy then
        .ok (none, [.info ("Skipping disabled server: " ++ name)])
      else
        match getField fs "command" with
        | none =>
            .ok (none, [.warning ("Server '" ++ name ++
              "' missing command field")])
        | some (.str command0) =>
            let argsV := (getField fs "args").getD (.arr [])
            match resolveCommandArgs name command0 argsV with
            | .error e => .error e
            | .ok (command, args) =>
                let msgs :=
                  match getField fs "autoApprove" with
                  | some v =>
                      if v.truthy then
                        [ConvMsg.info ("Server '" ++ name ++
                          "' has autoApprove settings - may need manual" ++
                          " approval in Open Web UI")]
                      else []
                  | none => []
                .ok (some { command := command, args := args,
                            env := getField fs "env" }, msgs)
        | some _ =>
            .error ("AttributeError: command of server '" ++ name ++
              "' has no attribute lower")
  | _ =>
      .error ("AttributeError: config of server '" ++ name ++
        "' is not an object")

/-- The loop of `convert_standard_config`: fold over the input servers in
order, inserting converted entries under their cleaned names into the
output dict and accumulating the info/warning messages. -/
def convertServersAux (acc : List (String × ConvertedServer))
    (msgs : List ConvMsg) :
    List (String × JVal) →
    Except String (List (String × ConvertedServer) × List ConvMsg)
  | [] => .ok (acc, msgs)
  | (nm, cfg) :: rest =>
      match convertSingleServer nm cfg with
      | .error e => .error e
      | .ok (some c, ms) =>
          convertServersAux (insertAssoc acc (cleanServerName nm) c)
            (msgs ++ ms) rest
      | .ok (none, ms) => convertServersAux acc (msgs ++ ms) rest

/-- `MCPConfigConverter.convert_standard_config`: require a `mcpServers`
key (else `raise ValueError`), then convert every server.  The result is
the output `mcpServers` object together with the accumulated messages. -/
def convertStandardConfig (cfg : JVal) :
    Except String (List (String × ConvertedServer) × List ConvMsg) :=
  match cfg with
  | .obj fs =>
      match getField fs "mcpServers" with
      | some (.obj servers) => convertServersAux [] [] servers
      | some _ => .error "AttributeError: mcpServers is not an object"
      | none =>
          .error "Invalid MCP configuration: missing 'mcpServers' key"
  | _ => .error "TypeError: configuration is not an object"

/-- A server entry that `_convert_single_server` skips with a message
rather than converting: its `disabled` field is truthy, or it has no
`command` key. -/
def serverSkipped (cfg : JVal) : Bool :=
  match cfg with
  | .obj fs =>
      ((getField fs "disabled").getD (.bool false)).truthy ||
      (getField fs "command").isNone
  | _ => false

/-- The message `_convert_single_server` records for a skipped server:
an info line for a disabled server, a warning for a missing command. -/
def skipMessage (name : String) (cfg : JVal) : ConvMsg :=
  match cfg with
  | .obj fs =>
      if ((getField fs "disabled").getD (.bool false)).truthy then
        .info ("Skipping disabled server: " ++ name)
      else .warning ("Server '" ++ name ++ "' missing command field")
  | _ => .warning ""

/-- A server configuration on which `_convert_single_server` completes
without raising: it is an object, and (unless it is skipped anyway) its
`command` value is a string whose lower-casing, when it is one of the
cmd/PowerShell wrapper executables, comes with an `args` list of
strings.  Any configuration outside this set makes the Python code raise
(`.get` on a non-dict, `.lower()` on a non-string, indexing/`.lower()`
on non-string args). -/
def wellFormedServer (cfg : JVal) : Bool :=
  match cfg with
  | .obj fs =>
      if ((getField fs "disabled").getD (.bool false)).truthy then true
      else
        match getField fs "command" with
        | none => true
        | some (.str c) =>
            if strToLower c == "cmd" || strToLower c == "cmd.exe" ||
               strToLower c == "powershell" || strToLower c == "pwsh" then
              (asStringList ((getField fs "args").getD (.arr []))).isSome
            else true
        | some _ => false
  | _ => false

/-- `re.match(r'^[a-zA-Z0-9_-]+$', name)` of
`ConfigValidator._validate_server_name`.  Python's `$` also matches just
before a single trailing newline, so a name ending in one `'\n'` is
accepted when the rest matches. -/
def isValidServerName (s : String) : Bool :=
  let l := s.toList
  let core := if l.getLast? == some '\n' then l.dropLast else l
  !core.isEmpty && core.all isAllowedChar

/-- `ConfigValidator._validate_server_name`: returns the messages appended
to `self.errors` and `self.warnings`. -/
def validateServerName (name : String) : List String × List String :=
  let errs :=
    if isValidServerName name then []
    else ["Server name '" ++ name ++ "' contains invalid characters. " ++
          "Use only letters, numbers, underscore, and hyphen"]
  let warns :=
    (if name.length > 50 then
      ["Server name '" ++ name ++ "' is very long (" ++
       toString name.length ++ " chars)"]
     else []) ++
    (if ["docs", "openapi.json", "health", "metrics"].contains
        (strToLower name) then
      ["Server name '" ++ name ++ "' conflicts with reserved endpoint"]
     else [])
  (errs, warns)

/-- State of the scanner behind `re.findall(r'\$\{([^}]+)\}', s)`:
outside any candidate match, just after a `'$'`, or inside `'${'` with the
characters read so far (in reverse). -/
inductive EnvRefScan where
  | outside
  | dollar
  | inside (acc : List Char)

/-- Left-to-right collection of the non-overlapping `${VAR}` references of
a string, as `re.findall(r'\$\{([^}]+)\}', s)` produces them (an empty
`${}` is not a match). -/
def envRefsAux : EnvRefScan → List Char → List String
  | _, [] => []
  | .outside, c :: rest =>
      envRefsAux (if c == '$' then .dollar else .outside) rest
  | .dollar, c :: rest =>
      if c == '{' then envRefsAux (.inside []) rest
      else envRefsAux (if c == '$' then .dollar else .outside) rest
  | .inside acc, c :: rest =>
      if c == '}' then
        if acc.isEmpty then envRefsAux .outside rest
        else String.mk acc.reverse :: envRefsAux .outside rest
      else envRefsAux (.inside (c :: acc)) rest

/-- `re.findall(r'\$\{([^}]+)\}', s)`. -/
def envRefs (s : String) : List String :=
  envRefsAux .outside s.toList

/-- The per-reference warnings `... references undefined environment
variable: VAR`; `env` models membership in `os.environ`. -/
def undefinedEnvRefWarnings (env : String → Bool) (mkMsg : String → String)
    (s : String) : List String :=
  (envRefs s).filterMap
    (fun v => if env v then none else some (mkMsg v))

/-- Rendering of a JSON value inside a Python f-string (used for the
`invalid type` message).  Lists/objects are abbreviated rather than fully
`repr`-ed; no settled claim depends on their rendering. -/
def jvalRender : JVal → String
  | .null => "None"
  | .bool true => "True"
  | .bool false => "False"
  | .num n => toString n
  | .str s => s
  | .arr _ => "[...]"
  | .obj _ => "{...}"

/-- One iteration of the header loop of
`ConfigValidator._validate_external_server` for header `k` with value `v`:
messages for `self.errors` / `self.warnings` plus a pending exception.
A non-string header value is reported as an error, after which the
`'${' in header_value` test raises `TypeError` for non-container values
(and for containers containing the element/key `'${'`, via `re.findall`
on a non-string). -/
def headerCheck (env : String → Bool) (name k : String) (v : JVal) :
    List String × List String × Option String :=
  let typeErr := ["Server '" ++ name ++ "' header['" ++ k ++
    "'] must be string"]
  let refMsg := fun var => "Server '" ++ name ++ "' header '" ++ k ++
    "' references undefined environment variable: " ++ var
  match v with
  | .str s => ([], undefinedEnvRefWarnings env refMsg s, none)
  | .arr xs =>
      (typeErr, [],
       if xs.any (fun x => match x with | .str t => t == "$\x7b" | _ => false)
       then some "TypeError: expected string or bytes-like object"
       else none)
  | .obj hs =>
      (typeErr, [],
       if hasField hs "$\x7b"
       then some "TypeError: expected string or bytes-like object"
       else none)
  | _ => (typeErr, [], some "TypeError: argument is not iterable")

/-- The header loop itself; a raised exception aborts the iteration,
keeping the messages accumulated so far. -/
def validateHeaders (env : String → Bool) (name : String) :
    List (String × JVal) → List String × List String × Option String
  | [] => ([], [], none)
  | (k, v) :: rest =>
      let (es, ws, exc) := headerCheck env name k v
      match exc with
      | some e => (es, ws, some e)
      | none =>
          let (es', ws', exc') := validateHeaders env name rest
          (es ++ es', ws ++ ws', exc')

/-- `ConfigValidator._validate_external_server` (server configurations
with a `type` key).  The `', '.join(valid_types)` of the invalid-type
message iterates a Python set, whose order is unspecified; one order is
fixed here. -/
def validateExternalServer (env : String → Bool) (name : String)
    (fs : List (String × JVal)) :
    List String × List String × Option String :=
  let typeErrs :=
    match getField fs "type" with
    | some (.str s) =>
        if s == "sse" || s == "streamable_http" then []
        else ["Server '" ++ name ++ "' has invalid type '" ++ s ++
              "'. Must be one of: sse, streamable_http"]
    | some v =>
        ["Server '" ++ name ++ "' has invalid type '" ++ jvalRender v ++
         "'. Must be one of: sse, streamable_http"]
    | none =>
        ["Server '" ++ name ++ "' has invalid type 'None'. " ++
         "Must be one of: sse, streamable_http"]
  let urlRefMsg := fun var => "Server '" ++ name ++
    "' URL references undefined environment variable: " ++ var
  let (urlErrs, urlWarns) :=
    match getField fs "url" with
    | none => (["Server '" ++ name ++ "' missing required 'url' field"], [])
    | some (.str url) =>
        ([],
         (if strStartsWith url "http://" || strStartsWith url "https://" then []
          else ["Server '" ++ name ++
                "' URL should start with http:// or https://"]) ++
         undefinedEnvRefWarnings env urlRefMsg url)
    | some _ => (["Server '" ++ name ++ "' 'url' must be a string"], [])
  let (hdrErrs, hdrWarns, hdrExc) :=
    match getField fs "headers" with
    | none => ([], [], none)
    | some (.obj hs) => validateHeaders env name hs
    | some _ =>
        (["Server '" ++ name ++ "' 'headers' must be an object"], [], none)
  match hdrExc with
  | some e => (typeErrs ++ urlErrs ++ hdrErrs, urlWarns ++ hdrWarns, some e)
  | none =>
      let unknown := fs.filter (fun p =>
        !(["type", "url", "headers"].contains p.1))
      let unknownWarns :=
        if unknown.isEmpty then []
        else ["Server '" ++ name ++ "' has unknown fields: " ++
              String.intercalate ", " (unknown.map (fun p => p.1))]
      (typeErrs ++ urlErrs ++ hdrErrs,
       urlWarns ++ hdrWarns ++ unknownWarns, none)

/-- `ConfigValidator._validate_command_server` (server configurations
without a `type` key); `which` models `shutil.which`. -/
def validateCommandServer (which : String → Bool) (name : String)
    (fs : List (String × JVal)) : List String × List String :=
  match getField fs "command" with
  | none => (["Server '" ++ name ++ "' missing required 'command' field"],
             [])
  | some (.str command) =>
      let whichWarns :=
        if which command then []
        else ["Server '" ++ name ++ "' command '" ++ command ++
              "' not found in PATH"]
      let argErrs :=
        match getField fs "args" with
        | none => []
        | some (.arr xs) =>
            xs.enum.filterMap (fun p =>
              match p.2 with
              | .str _ => none
              | _ => some ("Server '" ++ name ++ "' args[" ++
                  toString p.1 ++ "] must be a string"))
        | some _ => ["Server '" ++ name ++ "' 'args' must be an array"]
      let envErrs :=
        match getField fs "env" with
        | none => []
        | some (.obj es) =>
            es.filterMap (fun p =>
              match p.2 with
              | .str _ => none
              | _ => some ("Server '" ++ name ++ "' env['" ++ p.1 ++
                  "'] must be string"))
        | some _ => ["Server '" ++ name ++ "' 'env' must be an object"]
      let unknown := fs.filter (fun p =>
        !(["command", "args", "env"].contains p.1))
      let unknownWarns :=
        if unknown.isEmpty then []
        else ["Server '" ++ name ++ "' has unknown fields: " ++
              String.intercalate ", " (unknown.map (fun p => p.1))]
      (argErrs ++ envErrs, whichWarns ++ unknownWarns)
  | some _ => (["Server '" ++ name ++ "' 'command' must be a string"], [])

/-- `ConfigValidator._validate_server_config`: dispatch on the presence of
a `type` key; a non-object configuration is a single error. -/
def validateServerConfig (env which : String → Bool) (name : String)
    (cfg : JVal) : List String × List String × Option String :=
  match cfg with
  | .obj fs =>
      if hasField fs "type" then validateExternalServer env name fs
      else
        let (es, ws) := validateCommandServer which name fs
        (es, ws, none)
  | _ => (["Server '" ++ name ++ "' configuration must be an object"],
          [], none)

/-- `ConfigValidator._validate_servers`: names and configurations in
order; a raised exception aborts the loop. -/
def validateServers (env which : String → Bool) :
    List (String × JVal) → List String × List String × Option String
  | [] => ([], [], none)
  | (nm, cfg) :: rest =>
      let (e1, w1) := validateServerName nm
      let (e2, w2, exc) := validateServerConfig env which nm cfg
      match exc with
      | some ex => (e1 ++ e2, w1 ++ w2, some ex)
      | none =>
          let (e3, w3, exc') := validateServers env which rest
          (e1 ++ e2 ++ e3, w1 ++ w2 ++ w3, exc')

/-- `ConfigValidator._validate_structure`.  `'mcpServers' not in config`
is Python `in`: key lookup for dicts, element equality for lists,
substring test for strings, `TypeError` otherwise; when the test succeeds
on a non-dict, the subsequent `config['mcpServers']` indexing raises. -/
def validateStructure (v : JVal) :
    List String × List String × Option String :=
  match v with
  | .obj fs =>
      if !(hasField fs "mcpServers") then
        (["Missing required 'mcpServers' key"], [], none)
      else
        match getField fs "mcpServers" with
        | some (.obj servers) =>
            let ws :=
              (if servers.isEmpty then
                ["No servers defined in 'mcpServers'"]
               else []) ++
              (let unknown := fs.filter (fun p => !(p.1 == "mcpServers"))
               if unknown.isEmpty then []
               else ["Unknown top-level keys: " ++
                     String.intercalate ", " (unknown.map (fun p => p.1))])
            ([], ws, none)
        | _ => (["'mcpServers' must be an object/dictionary"], [], none)
  | .arr xs =>
      if xs.any (fun x =>
          match x with | .str t => t == "mcpServers" | _ => false) then
        ([], [], some "TypeError: list indices must be integers")
      else (["Missing required 'mcpServers' key"], [], none)
  | .str s =>
      if containsSublist "mcpServers".toList s.toList then
        ([], [], some "TypeError: string indices must be integers")
      else (["Missing required 'mcpServers' key"], [], none)
  | _ => ([], [], some "TypeError: argument is not iterable")

/-- Outcome of opening and parsing the file handed to
`ConfigValidator.validate_file`. -/
inductive FileOutcome where
  | missing (p : String)
  | unreadable (p : String)
  | badJson (e : String)
  | parsed (v : JVal)

/-- `ConfigValidator.validate_file`: returns the final `self.errors`,
`self.warnings` and the Boolean verdict `len(self.errors) == 0`.  The
outer `try` converts any exception raised inside the validation into an
`Unexpected error validating config: ...` error (keeping the messages
accumulated before the raise) and verdict `False`. -/
def validateFile (env which : String → Bool) (f : FileOutcome) :
    List String × List String × Bool :=
  match f with
  | .missing p => (["Configuration file not found: " ++ p], [], false)
  | .unreadable p =>
      (["Configuration file is not readable: " ++ p], [], false)
  | .badJson e => (["Invalid JSON syntax: " ++ e], [], false)
  | .parsed v =>
      let (e1, w1, exc1) := validateStructure v
      match exc1 with
      | some ex =>
          (e1 ++ ["Unexpected error validating config: " ++ ex], w1, false)
      | none =>
          match v with
          | .obj fs =>
              match getField fs "mcpServers" with
              | some (.obj servers) =>
                  let (e2, w2, exc2) := validateServers env which servers
                  match exc2 with
                  | some ex =>
                      (e1 ++ e2 ++
                       ["Unexpected error validating config: " ++ ex],
                       w1 ++ w2, false)
                  | none => (e1 ++ e2, w1 ++ w2, (e1 ++ e2).isEmpty)
              | some _ =>
                  (e1 ++ ["Unexpected error validating config: " ++
                    "AttributeError: no attribute items"], w1, false)
              | none => (e1, w1, e1.isEmpty)
          | _ => (e1, w1, e1.isEmpty)

/-- `run_health_check` of `health-check.py`'s `main`: returns 1 when
`--exit-code` was given and the run's overall status is `'fail'`, else
0. -/
def runHealthCheckExit (exitFlag : Bool) (overall : Status) : Nat :=
  if exitFlag && (overall == Status.fail) then 1 else 0

/-- The exit code of `main`.  `--continuous SECONDS` is truthy for a
non-zero interval; the continuous loop assigns each iteration's
`run_health_check()` result to `exit_code` but never uses it, terminating
only through `KeyboardInterrupt`, whose handler returns 0. -/
def mainExit (continuous : Option Nat) (exitFlag : Bool)
    (overall : Status) : Nat :=
  if (match continuous with | some n => n != 0 | none => false) then
    let _ := runHealthCheckExit exitFlag overall
    0
  else runHealthCheckExit exitFlag overall

/-- State of the optional `--config` file of `health-check.py`. -/
inductive HealthFileState where
  | missingFile (p : String)
  | malformed (e : String)
  | good

/-- `load_config`: a missing file is silently skipped
(`os.path.exists` guard), so only a present-but-malformed file makes
`json.load` raise — and `load_config` has no handler for it. -/
def loadConfigOutcome : Option HealthFileState → Except String Unit
  | none => .ok ()
  | some (.missingFile _) => .ok ()
  | some (.malformed e) => .error e
  | some .good => .ok ()

/-- How a health-check process invocation terminates: a normal completion
with an exit code, an argparse usage error, or an exception that escapes
`main` (the interpreter prints a traceback and exits 1). -/
inductive HealthProc where
  | completed (exit : Nat)
  | usageError (exit : Nat)
  | uncaught (e : String)
deriving DecidableEq, Repr

/-- Top-level control flow of `health-check.py`: argparse rejects an
unknown `--format` with a usage error (exit 2) before anything runs; an
exception raised by `load_config` is uncaught. -/
def healthCliModel (format : String) (cfgFile : Option HealthFileState)
    (exitFlag : Bool) (overall : Status) (continuous : Option Nat) :
    HealthProc :=
  if !(["human", "json", "prometheus"].contains format) then .usageError 2
  else
    match loadConfigOutcome cfgFile with
    | .error e => .uncaught e
    | .ok _ => .completed (mainExit continuous exitFlag overall)

/-- Top-level `try`/`except` of `convert-mcp-config.py`'s `main`: any
exception (unreadable input, bad JSON, conversion error) is printed as
`❌ Error: ...` on stderr with exit code 1; the pair is
(exit code, marked error message if any). -/
def convertCliModel (input : Except String JVal) : Nat × Option String :=
  match input with
  | .error e => (1, some ("❌ Error: " ++ e))
  | .ok cfg =>
      match convertStandardConfig cfg with
      | .error e => (1, some ("❌ Error: " ++ e))
      | .ok _ => (0, none)

/-- `validate-config.py`'s `main` on a single configuration file: exit 1
when the file is invalid; the Boolean records whether the printed report
contains an `ERRORS` section. -/
def validateCliModel (env which : String → Bool) (f : FileOutcome) :
    Nat × Bool :=
  let r := validateFile env which f
  (if r.2.2 then 0 else 1, !(r.1.isEmpty))

/-! ## Theorems -/

/-- C1: a registered check appears in the report's `checks` mapping iff
(`enabled_checks` is non-empty and the name is in it) or (`enabled_checks`
is empty and the name is not in `disabled_checks`); with a non-empty
allow-list the report's keys are exactly the intersection of
`enabled_checks` with the eight registered names, in registration
order. -/
theorem check_selection_correct (cfg : HCConfig) :
    (∀ name ∈ checkNames,
      (name ∈ reportedCheckNames cfg ↔
        (cfg.enabled_checks ≠ [] ∧ name ∈ cfg.enabled_checks) ∨
        (cfg.enabled_checks = [] ∧ name ∉ cfg.disabled_checks))) ∧
    (cfg.enabled_checks ≠ [] →
      reportedCheckNames cfg =
        checkNames.filter (fun n => cfg.enabled_checks.contains n)) := by
  constructor
  · intro name hname
    rw [reportedCheckNames, List.mem_filter]
    cases h : cfg.enabled_checks with
    | nil => simp [shouldRunCheck, h, hname]
    | cons a l => simp [shouldRunCheck, h, hname]
  · intro h
    rw [reportedCheckNames]
    apply List.filter_congr
    intro x _
    rw [shouldRunCheck]
    cases hh : cfg.enabled_checks with
    | nil => exact absurd hh h
    | cons a l => simp [hh]

/-- Witness for C1 at concrete configurations: with an empty allow-list a
check not on the deny-list is reported; with a non-empty allow-list only
registered allow-listed checks are reported, in registration order. -/
theorem check_selection_correct_witness :
    "mcpo_tools" ∈ reportedCheckNames ⟨[], ["docker_health"]⟩ ∧
    reportedCheckNames ⟨["docker_health", "nope"], []⟩ =
      ["docker_health"] := by
  constructor
  · exact ((check_selection_correct ⟨[], ["docker_health"]⟩).1 "mcpo_tools"
      (by decide)).mpr (Or.inr ⟨rfl, by decide⟩)
  · exact ((check_selection_correct ⟨["docker_health", "nope"], []⟩).2
      (by decide)).trans (by decide)

/-- C2: the overall status is `'fail'` iff `summary.failed > 0`;
otherwise it is `'warning'` iff `summary.warnings > 0`; otherwise it is
`'pass'`. -/
theorem overall_status_policy (checks : List (String × CheckResult)) :
    (overallStatus checks = Status.fail ↔
      0 < (calculateSummary checks).failed) ∧
    ((calculateSummary checks).failed = 0 →
      (overallStatus checks = Status.warning ↔
        0 < (calculateSummary checks).warnings)) ∧
    ((calculateSummary checks).failed = 0 →
      (calculateSummary checks).warnings = 0 →
      overallStatus checks = Status.pass) := by
  unfold overallStatus
  refine ⟨?_, ?_, ?_⟩
  · split_ifs with h1 h2 <;> simp_all
  · intro h
    split_ifs with h1 h2 <;> simp_all
  · intro h h'
    split_ifs with h1 h2 <;> simp_all

/-- Witness for C2 at a concrete report: one warning and no failure makes
the overall status `'warning'`. -/
theorem overall_status_policy_witness :
    overallStatus [("mcpo_connectivity",
      { status := Status.warning, message := "m", duration := 1,
        details := [] })] = Status.warning :=
  ((overall_status_policy _).2.1 (by decide)).mpr (by decide)

/-- The five status counts of a check list partition its length. -/
theorem length_eq_sum_status_counts
    (checks : List (String × CheckResult)) :
    checks.length =
      checks.countP (fun c => c.2.status = Status.pass) +
      checks.countP (fun c => c.2.status = Status.fail) +
      checks.countP (fun c => c.2.status = Status.warning) +
      checks.countP (fun c => c.2.status = Status.error) +
      checks.countP (fun c => c.2.status = Status.skip) := by
  induction checks with
  | nil => simp
  | cons c rest ih =>
      cases hr : c.2.status <;>
        simp [List.countP_cons, hr, ih] <;> omega

/-- C3: `summary.total` is the number of checks; `passed`/`failed`/
`warnings` count exact status matches; `skipped` is the subtraction
`total - passed - failed - warnings`, which makes it the number of
`'error'`-status plus `'skip'`-status checks, and the four buckets sum
back to the total. -/
theorem summary_counts_correct (checks : List (String × CheckResult)) :
    (calculateSummary checks).total = checks.length ∧
    (calculateSummary checks).passed =
      checks.countP (fun c => c.2.status = Status.pass) ∧
    (calculateSummary checks).failed =
      checks.countP (fun c => c.2.status = Status.fail) ∧
    (calculateSummary checks).warnings =
      checks.countP (fun c => c.2.status = Status.warning) ∧
    (calculateSummary checks).skipped =
      (calculateSummary checks).total - (calculateSummary checks).passed -
      (calculateSummary checks).failed -
      (calculateSummary checks).warnings ∧
    (calculateSummary checks).skipped =
      checks.countP (fun c => c.2.status = Status.error) +
      checks.countP (fun c => c.2.status = Status.skip) ∧
    (calculateSummary checks).total =
      (calculateSummary checks).passed + (calculateSummary checks).failed +
      (calculateSummary checks).warnings +
      (calculateSummary checks).skipped := by
  have hlen := length_eq_sum_status_counts checks
  refine ⟨rfl, rfl, rfl, rfl, rfl, ?_, ?_⟩ <;>
    simp only [calculateSummary] <;> omega

/-- C4: an exception raised inside a probe is converted by `_run_check`
into a `CheckResult` with status `'error'`, a message describing the
exception, empty details and the measured duration; every outcome gets its
duration recorded, and the runner always completes with exactly one result
per selected check. -/
theorem run_check_isolates_exceptions (e : String) (t : Nat)
    (outcome : Except String ProbeResult) (cfg : HCConfig)
    (probes : String → Except String ProbeResult)
    (times : String → Nat) :
    runCheck (Except.error e) t =
      { status := Status.error,
        message := "Check failed with exception: " ++ e,
        duration := t, details := [] } ∧
    (runCheck outcome t).duration = t ∧
    (runAllChecks cfg probes times).length =
      (reportedCheckNames cfg).length := by
  refine ⟨rfl, ?_, by simp [runAllChecks]⟩
  cases outcome <;> rfl

/-- C5: the authentication check returns `'skip'` when no api_key is
configured; otherwise an HTTP 200 response yields `'pass'`, 401 or 403
yield `'fail'` with the status code in the details, and any other status
code yields `'warning'`. -/
theorem auth_check_behavior (apiKey : Option String) :
    (apiKeyTruthy apiKey = false → ∀ resp,
      checkMcpoAuthentication apiKey resp =
        { status := Status.skip, message := "No API key configured",
          details := [] }) ∧
    (apiKeyTruthy apiKey = true →
      ((checkMcpoAuthentication apiKey (.ok 200)).status = Status.pass ∧
       (∀ code : Nat, code = 401 ∨ code = 403 →
         checkMcpoAuthentication apiKey (.ok code) =
           { status := Status.fail,
             message := "Authentication failed (HTTP " ++ toString code ++
               ")",
             details := [("status_code", DVal.num (Int.ofNat code))] }) ∧
       (∀ code : Nat, code ≠ 200 → code ≠ 401 → code ≠ 403 →
         (checkMcpoAuthentication apiKey (.ok code)).status =
           Status.warning))) := by
  constructor
  · intro h resp
    simp [checkMcpoAuthentication, h]
  · intro h
    refine ⟨?_, ?_, ?_⟩
    · simp [checkMcpoAuthentication, h]
    · rintro code (rfl | rfl) <;> simp [checkMcpoAuthentication, h]
    · intro code h200 h401 h403
      simp [checkMcpoAuthentication, h, h200, h401, h403]

/-- Witness for C5 at concrete inputs: a 403 response with a configured
key fails with the code recorded, and a missing key skips. -/
theorem auth_check_behavior_witness :
    checkMcpoAuthentication (some "secret") (.ok 403) =
      { status := Status.fail,
        message := "Authentication failed (HTTP " ++ toString (403 : Nat)
          ++ ")",
        details := [("status_code", DVal.num (Int.ofNat 403))] } ∧
    checkMcpoAuthentication none (.ok 200) =
      { status := Status.skip, message := "No API key configured",
        details := [] } :=
  ⟨((auth_check_behavior (some "secret")).2 (by decide)).2.1 403
    (Or.inr rfl),
   (auth_check_behavior none).1 (by decide) (.ok 200)⟩

/-- Counterexample to C6: `health-check.py` does not catch fatal config
I/O errors — a malformed `--config` file escapes `load_config` as an
unhandled exception (interpreter traceback, not a marked failure report),
and a missing `--config` file is silently ignored, completing with exit
code 0 instead of any failure. -/
theorem health_cli_fatal_error_counterexample :
    healthCliModel "human" (some (.malformed "Expecting value"))
      false Status.pass none = HealthProc.uncaught "Expecting value" ∧
    healthCliModel "human" (some (.missingFile "absent.json"))
      false Status.pass none = HealthProc.completed 0 :=
  ⟨rfl, rfl⟩

/-- C6 (amended): the converter and the validator catch fatal input
errors and report them as a marked failure with exit code 1; the
health-check CLI rejects an unknown output-format name at argument
parsing (usage error, exit 2), but lets a malformed config file escape as
an unhandled exception and silently ignores a missing config file. -/
theorem cli_fatal_error_handling (env which : String → Bool)
    (e p fmt : String) (cfgFile : Option HealthFileState) (flag : Bool)
    (ov : Status) (cont : Option Nat) :
    convertCliModel (Except.error e) = (1, some ("❌ Error: " ++ e)) ∧
    validateCliModel env which (.missing p) = (1, true) ∧
    validateCliModel env which (.badJson e) = (1, true) ∧
    (fmt ∉ (["human", "json", "prometheus"] : List String) →
      healthCliModel fmt cfgFile flag ov cont = .usageError 2) ∧
    healthCliModel "human" (some (.malformed e)) flag ov cont =
      .uncaught e ∧
    healthCliModel "human" (some (.missingFile p)) flag ov cont =
      .completed (mainExit cont flag ov) := by
  refine ⟨rfl, rfl, rfl, ?_, rfl, rfl⟩
  intro h
  have hc : (["human", "json", "prometheus"].contains fmt) = false := by
    simpa using h
  simp only [healthCliModel, hc, Bool.not_false, if_true]

/-- Witness for C6 (amended) at a concrete unknown format name. -/
theorem cli_fatal_error_handling_witness :
    healthCliModel "xml" none false Status.pass none =
      HealthProc.usageError 2 :=
  (cli_fatal_error_handling (fun _ => false) (fun _ => false) "e" "p"
    "xml" none false Status.pass none).2.2.2.1 (by decide)

/-- Counterexample to C7: in continuous mode with `--exit-code` set and a
failing run, the process exit code is 0 (the loop discards the
per-iteration code and the interrupt handler returns 0), not 1 as the
claim requires. -/
theorem continuous_mode_exit_counterexample :
    mainExit (some 30) true Status.fail = 0 ∧
    mainExit (some 30) true Status.fail ≠ 1 :=
  ⟨rfl, by decide⟩

/-- C7 (amended): in one-shot mode (no `--continuous`, or a 0-second
interval, which Python treats as falsy) the exit code is 1 exactly when
the exit-code flag is set and the overall status is `'fail'`, else 0;
with a non-zero continuous interval the process always exits 0, on
keyboard interrupt. -/
theorem exit_code_policy (flag : Bool) (ov : Status) (n : Nat) :
    (mainExit none flag ov =
      if flag = true ∧ ov = Status.fail then 1 else 0) ∧
    mainExit (some 0) flag ov = mainExit none flag ov ∧
    (n ≠ 0 → mainExit (some n) flag ov = 0) := by
  refine ⟨?_, ?_, ?_⟩
  · simp only [mainExit, runHealthCheckExit]
    split_ifs with h1 h2 <;> simp_all
  · rfl
  · intro h
    simp [mainExit, h]

/-- Witness for C7 (amended) at concrete inputs: a failing one-shot run
with the flag set exits 1; the same run under `--continuous 30` exits
0. -/
theorem exit_code_policy_witness :
    mainExit none true Status.fail = 1 ∧
    mainExit (some 30) true Status.fail = 0 :=
  ⟨((exit_code_policy true Status.fail 30).1).trans (by decide),
   (exit_code_policy true Status.fail 30).2.2 (by decide)⟩

/-- Counterexample to C8: the four sanitisation steps alone do not
describe `_clean_server_name` on every name — a name whose sanitised form
is empty (here `"."`) is replaced by the fallback `'server'`, so the
function differs from the strip/replace/collapse/trim pipeline there. -/
theorem clean_server_name_counterexample :
    cleanServerName "." ≠ cleanServerNamePipeline "." := by decide

/-- C8 (amended): `_clean_server_name` strips one leading known prefix,
replaces disallowed characters by `_`, collapses `_` runs and trims
leading/trailing `_` — falling back to the name `'server'` when that
leaves nothing; the scenario input `github.com/foo-bar` with command
`npx` and args `['-y', '@x/y']` converts to key `foo-bar` with command
and args unchanged. -/
theorem clean_server_name_spec (name : String) :
    (cleanServerNamePipeline name ≠ "" →
      cleanServerName name = cleanServerNamePipeline name) ∧
    (cleanServerNamePipeline name = "" →
      cleanServerName name = "server") ∧
    convertStandardConfig (.obj [("mcpServers", .obj
      [("github.com/foo-bar", .obj [("command", .str "npx"),
        ("args", .arr [.str "-y", .str "@x/y"])])])]) =
      .ok ([("foo-bar", ConvertedServer.mk "npx"
        (.arr [.str "-y", .str "@x/y"]) none)], []) := by
  refine ⟨?_, ?_, rfl⟩
  · intro h
    simp [cleanServerName, h]
  · intro h
    simp [cleanServerName, h]

/-- Witness for C8 (amended) at concrete names: a prefixed name sanitises
to its suffix, and an all-symbols name falls back to `'server'`. -/
theorem clean_server_name_spec_witness :
    cleanServerName "github.com/foo-bar" = "foo-bar" ∧
    cleanServerName "!!!" = "server" :=
  ⟨((clean_server_name_spec "github.com/foo-bar").1 (by decide)).trans
    (by decide),
   (clean_server_name_spec "!!!").2.1 (by decide)⟩

/-- C9: for a configuration file with one server entry whose name is
well-formed and whose config is exactly `{"type": "sse"}`, the validator
reports exactly one error — the missing required `url` field — and the
file-level verdict is false. -/
theorem validator_missing_url_scenario (env which : String → Bool)
    (name : String) (h : isValidServerName name = true) :
    (validateFile env which (.parsed (.obj [("mcpServers", .obj
      [(name, .obj [("type", .str "sse")])])]))).1 =
      ["Server '" ++ name ++ "' missing required 'url' field"] ∧
    (validateFile env which (.parsed (.obj [("mcpServers", .obj
      [(name, .obj [("type", .str "sse")])])]))).2.2 = false := by
  simp [validateFile, validateStructure, validateServers,
    validateServerName, validateServerConfig, validateExternalServer,
    getField, hasField, h]

/-- Witness for C9 at the concrete server name `a` (and empty environment
and PATH). -/
theorem validator_missing_url_scenario_witness :
    (validateFile (fun _ => false) (fun _ => false) (.parsed (.obj
      [("mcpServers", .obj [("a", .obj [("type", .str "sse")])])]))).1 =
      ["Server 'a' missing required 'url' field"] ∧
    (validateFile (fun _ => false) (fun _ => false) (.parsed (.obj
      [("mcpServers", .obj [("a", .obj [("type", .str "sse")])])]))).2.2 =
      false := by
  have h := validator_missing_url_scenario (fun _ => false)
    (fun _ => false) "a" (by decide)
  simpa using h

/-- A list of string-wrapped JSON values reads back as the original
strings. -/
theorem strList_map_str (l : List String) :
    strList (l.map JVal.str) = some l := by
  induction l with
  | nil => rfl
  | cons a l ih => simp [strList, ih]

/-- `asStringList` succeeds on an array of string values. -/
theorem asStringList_arr_map_str (l : List String) :
    asStringList (JVal.arr (l.map JVal.str)) = some l := by
  simp [asStringList, strList_map_str]

/-- `resolvePowershell` completes when string args are available whenever
the command is a PowerShell wrapper. -/
theorem resolvePowershell_ok (name c1 : String) (a1 : JVal)
    (h : (strToLower c1 == "powershell" || strToLower c1 == "pwsh") = true
      → (asStringList a1).isSome = true) :
    ∃ p, resolvePowershell name c1 a1 = .ok p := by
  unfold resolvePowershell
  by_cases hc :
      (strToLower c1 == "powershell" || strToLower c1 == "pwsh") = true
  · rw [if_pos hc]
    cases hval : asStringList a1 with
    | none =>
        have hsome := h hc
        rw [hval] at hsome
        simp at hsome
    | some l => exact ⟨_, rfl⟩
  · rw [if_neg hc]
    exact ⟨_, rfl⟩

/-- `resolveCommandArgs` completes when string args are available whenever
the command is one of the four wrapper executables. -/
theorem resolveCommandArgs_ok (name c : String) (a : JVal)
    (h : (strToLower c == "cmd" || strToLower c == "cmd.exe" ||
          strToLower c == "powershell" || strToLower c == "pwsh") = true →
         (asStringList a).isSome = true) :
    ∃ p, resolveCommandArgs name c a = .ok p := by
  unfold resolveCommandArgs
  by_cases hc : (strToLower c == "cmd" || strToLower c == "cmd.exe") = true
  · rw [if_pos hc]
    have ha : (asStringList a).isSome = true := by
      apply h
      rcases Bool.or_eq_true_iff.mp hc with h' | h' <;> simp [h']
    cases hval : asStringList a with
    | none => rw [hval] at ha; simp at ha
    | some l =>
        apply resolvePowershell_ok
        intro _
        simp [asStringList_arr_map_str]
  · rw [if_neg hc]
    apply resolvePowershell_ok
    intro hps
    apply h
    rcases Bool.or_eq_true_iff.mp hps with h' | h' <;> simp [h']

/-- A skipped server converts to `none` with exactly its skip message. -/
theorem convertSingleServer_of_skipped (name : String) (cfg : JVal)
    (h : serverSkipped cfg = true) :
    convertSingleServer name cfg = .ok (none, [skipMessage name cfg]) := by
  cases cfg with
  | obj fs =>
      by_cases hd : ((getField fs "disabled").getD (.bool false)).truthy
      · simp [convertSingleServer, skipMessage, hd]
      · simp only [serverSkipped, hd, Bool.false_or] at h
        cases hcmd : getField fs "command" with
        | none =>
            simp [convertSingleServer, skipMessage, hd, hcmd,
              Bool.not_eq_true] at *
        | some v => rw [hcmd] at h; simp at h
  | null => simp [serverSkipped] at h
  | bool b => simp [serverSkipped] at h
  | num n => simp [serverSkipped] at h
  | str s => simp [serverSkipped] at h
  | arr xs => simp [serverSkipped] at h

/-- A well-formed, non-skipped server converts to `some` entry. -/
theorem convertSingleServer_of_active (name : String) (cfg : JVal)
    (hwf : wellFormedServer cfg = true) (hns : serverSkipped cfg = false) :
    ∃ c ms, convertSingleServer name cfg = .ok (some c, ms) := by
  cases cfg with
  | obj fs =>
      have hd : ((getField fs "disabled").getD (.bool false)).truthy
          = false := by
        by_contra hd'
        simp only [Bool.not_eq_false] at hd'
        simp [serverSkipped, hd'] at hns
      simp only [serverSkipped, hd, Bool.false_or] at hns
      cases hcmd : getField fs "command" with
      | none => rw [hcmd] at hns; simp at hns
      | some v =>
          cases v with
          | str c =>
              simp only [wellFormedServer, hd, Bool.false_eq_true,
                if_false, hcmd] at hwf
              have hres : ∃ p, resolveCommandArgs name c
                  ((getField fs "args").getD (.arr [])) = .ok p := by
                apply resolveCommandArgs_ok
                intro hwrap
                rcases Bool.or_eq_true_iff.mp hwrap with h' | h'
                · rcases Bool.or_eq_true_iff.mp h' with h'' | h''
                  · rcases Bool.or_eq_true_iff.mp h'' with h3 | h3 <;>
                      simpa [h3] using hwf
                  · simpa [h''] using hwf
                · simpa [h'] using hwf
              obtain ⟨p, hp⟩ := hres
              obtain ⟨c1, a1⟩ := p
              simp only [convertSingleServer, hd, Bool.false_eq_true,
                if_false, hcmd, hp]
              exact ⟨_, _, rfl⟩
          | null =>
              simp [wellFormedServer, hd, hcmd] at hwf
          | bool b => simp [wellFormedServer, hd, hcmd] at hwf
          | num n => simp [wellFormedServer, hd, hcmd] at hwf
          | arr xs => simp [wellFormedServer, hd, hcmd] at hwf
          | obj fs' => simp [wellFormedServer, hd, hcmd] at hwf
  | null => simp [wellFormedServer] at hwf
  | bool b => simp [wellFormedServer] at hwf
  | num n => simp [wellFormedServer] at hwf
  | str s => simp [wellFormedServer] at hwf
  | arr xs => simp [wellFormedServer] at hwf

/-- Updating a key of an association list with `insertAssoc` leaves every
entry's key in place. -/
theorem hasKey_map_update {α : Type} (m : List (String × α)) (k k' : String)
    (v : α) :
    hasKey (m.map (fun p => if p.1 == k' then (k', v) else p)) k =
      hasKey m k := by
  induction m with
  | nil => rfl
  | cons p t ih =>
      simp only [hasKey, List.map_cons, List.any_cons] at *
      rw [ih]
      congr 1
      by_cases hp : (p.1 == k') = true
      · have h' := beq_iff_eq.mp hp
        simp [hp, h']
      · simp [hp]

/-- Key membership after a dict insertion: the inserted key, or any
previous key. -/
theorem hasKey_insertAssoc {α : Type} (m : List (String × α))
    (k k' : String) (v : α) :
    hasKey (insertAssoc m k' v) k = true ↔
      k = k' ∨ hasKey m k = true := by
  unfold insertAssoc
  by_cases h : m.any (fun p => p.1 == k') = true
  · rw [if_pos h]
    rw [show hasKey (m.map (fun p => if p.1 == k' then (k', v) else p)) k
        = hasKey m k from hasKey_map_update m k k' v]
    constructor
    · exact Or.inr
    · rintro (rfl | hm)
      · exact h
      · exact hm
  · rw [if_neg h]
    have happ : hasKey (m ++ [(k', v)]) k = (hasKey m k || (k' == k)) := by
      simp [hasKey, List.any_append]
    rw [happ, Bool.or_eq_true]
    constructor
    · rintro (hm | hk)
      · exact Or.inr hm
      · exact Or.inl (beq_iff_eq.mp hk).symm
    · rintro (rfl | hm)
      · exact Or.inr (by simp)
      · exact Or.inl hm

/-- Invariant of the conversion loop: it completes on well-formed
servers, its keys come from the accumulator or from active servers, keys
are never dropped, messages are never dropped, skipped servers leave
their message, and active servers leave their cleaned key. -/
theorem convertServersAux_spec (servers : List (String × JVal)) :
    ∀ (acc : List (String × ConvertedServer)) (msgs : List ConvMsg),
    (∀ p ∈ servers, wellFormedServer p.2 = true) →
    ∃ m ms, convertServersAux acc msgs servers = .ok (m, ms) ∧
      (∀ k, hasKey m k = true → hasKey acc k = true ∨
        ∃ p ∈ servers, serverSkipped p.2 = false ∧
          k = cleanServerName p.1) ∧
      (∀ k, hasKey acc k = true → hasKey m k = true) ∧
      (∀ x ∈ msgs, x ∈ ms) ∧
      (∀ p ∈ servers, serverSkipped p.2 = true →
        skipMessage p.1 p.2 ∈ ms) ∧
      (∀ p ∈ servers, serverSkipped p.2 = false →
        hasKey m (cleanServerName p.1) = true) := by
  induction servers with
  | nil =>
      intro acc msgs _
      exact ⟨acc, msgs, rfl, fun k hk => Or.inl hk, fun k hk => hk,
        fun x hx => hx, by simp, by simp⟩
  | cons hd tl ih =>
      intro acc msgs hwf
      obtain ⟨nm, cfg⟩ := hd
      by_cases hsk : serverSkipped cfg = true
      · have hstep := convertSingleServer_of_skipped nm cfg hsk
        obtain ⟨m, ms, heq, h1, h2, h3, h4, h5⟩ :=
          ih acc (msgs ++ [skipMessage nm cfg])
            (fun p hp => hwf p (List.mem_cons_of_mem _ hp))
        refine ⟨m, ms, ?_, ?_, h2, ?_, ?_, ?_⟩
        · simp only [convertServersAux, hstep]
          exact heq
        · intro k hk
          rcases h1 k hk with h | ⟨p, hp, hps⟩
          · exact Or.inl h
          · exact Or.inr ⟨p, List.mem_cons_of_mem _ hp, hps⟩
        · intro x hx
          exact h3 x (List.mem_append_left _ hx)
        · intro p hp hps
          rcases List.mem_cons.mp hp with rfl | hp'
          · exact h3 _ (List.mem_append_right _ (List.mem_singleton.mpr
              rfl))
          · exact h4 p hp' hps
        · intro p hp hps
          rcases List.mem_cons.mp hp with rfl | hp'
          · rw [hps] at hsk; exact absurd hsk (by simp)
          · exact h5 p hp' hps
      · have hsk' : serverSkipped cfg = false :=
          Bool.not_eq_true _ ▸ Bool.of_not_eq_true hsk
        obtain ⟨c, ms0, hstep⟩ := convertSingleServer_of_active nm cfg
          (hwf _ (List.mem_cons_self _ _)) hsk'
        obtain ⟨m, ms, heq, h1, h2, h3, h4, h5⟩ :=
          ih (insertAssoc acc (cleanServerName nm) c) (msgs ++ ms0)
            (fun p hp => hwf p (List.mem_cons_of_mem _ hp))
        refine ⟨m, ms, ?_, ?_, ?_, ?_, ?_, ?_⟩
        · simp only [convertServersAux, hstep]
          exact heq
        · intro k hk
          rcases h1 k hk with h | ⟨p, hp, hps⟩
          · rcases (hasKey_insertAssoc acc k (cleanServerName nm) c).mp h
              with rfl | hacc
            · exact Or.inr ⟨(nm, cfg), List.mem_cons_self _ _, hsk', rfl⟩
            · exact Or.inl hacc
          · exact Or.inr ⟨p, List.mem_cons_of_mem _ hp, hps⟩
        · intro k hk
          exact h2 k ((hasKey_insertAssoc acc k (cleanServerName nm)
            c).mpr (Or.inr hk))
        · intro x hx
          exact h3 x (List.mem_append_left _ hx)
        · intro p hp hps
          rcases List.mem_cons.mp hp with rfl | hp'
          · rw [hps] at hsk'; exact absurd hsk' (by simp)
          · exact h4 p hp' hps
        · intro p hp hps
          rcases List.mem_cons.mp hp with rfl | hp'
          · exact h2 _ ((hasKey_insertAssoc acc _ (cleanServerName nm)
              c).mpr (Or.inl rfl))
          · exact h5 p hp' hps

/-- Counterexample to C10: a server whose `command` value is present but
not a string is neither omitted-with-a-message nor converted — the whole
conversion raises (`config['command'].lower()` on an `int`), so no output
mapping is produced at all. -/
theorem converter_nonstring_command_counterexample :
    convertStandardConfig (.obj [("mcpServers", .obj
      [("a", .obj [("command", .num 5)])])]) =
      .error
        "AttributeError: command of server 'a' has no attribute lower" :=
  rfl

/-- C10 (amended): on an input whose server configurations are objects
that the converter can process without raising (string `command` values,
with string-array args for wrapper commands), the conversion succeeds;
every disabled or command-less server is omitted but leaves an
info/warning message, every other server contributes an entry under its
sanitised name, and every output key comes from such a server. -/
theorem converter_omission_and_contribution
    (servers : List (String × JVal))
    (hwf : ∀ p ∈ servers, wellFormedServer p.2 = true) :
    ∃ m ms,
      convertStandardConfig (.obj [("mcpServers", .obj servers)]) =
        .ok (m, ms) ∧
      (∀ p ∈ servers, serverSkipped p.2 = true →
        skipMessage p.1 p.2 ∈ ms) ∧
      (∀ p ∈ servers, serverSkipped p.2 = false →
        hasKey m (cleanServerName p.1) = true) ∧
      (∀ k, hasKey m k = true →
        ∃ p ∈ servers, serverSkipped p.2 = false ∧
          k = cleanServerName p.1) := by
  obtain ⟨m, ms, heq, h1, _h2, _h3, h4, h5⟩ :=
    convertServersAux_spec servers [] [] hwf
  refine ⟨m, ms, ?_, h4, h5, ?_⟩
  · show convertStandardConfig _ = _
    have hred : convertStandardConfig (.obj [("mcpServers", .obj servers)])
        = convertServersAux [] [] servers := rfl
    rw [hred]
    exact heq
  · intro k hk
    rcases h1 k hk with h | h
    · simp [hasKey] at h
    · exact h

/-- Witness for C10 (amended) at a concrete three-server input: the
active server contributes its sanitised key, the disabled and the
command-less servers leave their messages. -/
theorem converter_omission_and_contribution_witness :
    ∃ m ms,
      convertStandardConfig (.obj [("mcpServers", .obj
        [("github.com/a", .obj [("command", .str "npx")]),
         ("dead", .obj [("disabled", .bool true)]),
         ("nocmd", .obj [("env", .obj [])])])]) = .ok (m, ms) ∧
      hasKey m (cleanServerName "github.com/a") = true ∧
      skipMessage "dead" (.obj [("disabled", .bool true)]) ∈ ms ∧
      skipMessage "nocmd" (.obj [("env", .obj [])]) ∈ ms := by
  obtain ⟨m, ms, heq, hskip, hcontrib, _⟩ :=
    converter_omission_and_contribution
      [("github.com/a", .obj [("command", .str "npx")]),
       ("dead", .obj [("disabled", .bool true)]),
       ("nocmd", .obj [("env", .obj [])])]
      (by intro p hp
          rcases List.mem_cons.mp hp with rfl | hp'
          · rfl
          rcases List.mem_cons.mp hp' with rfl | hp''
          · rfl
          rcases List.mem_cons.mp hp'' with rfl | hp3
          · rfl
          · simp at hp3)
  exact ⟨m, ms, heq,
    hcontrib ("github.com/a", .obj [("command", .str "npx")])
      (List.mem_cons_self _ _) rfl,
    hskip ("dead", .obj [("disabled", .bool true)])
      (List.mem_cons_of_mem _ (List.mem_cons_self _ _)) rfl,
    hskip ("nocmd", .obj [("env", .obj [])])
      (List.mem_cons_of_mem _ (List.mem_cons_of_mem _
        (List.mem_cons_self _ _))) rfl⟩

end McpoSetup
